import Mathlib

/-!
Verification development for the recipe-book REST API
(Express + MongoDB, files: index.js, db.js, middlewares.js).

The JavaScript source is shallowly embedded: each route handler becomes a
pure Lean function from a database value (lists of documents) and a request
to a response paired with the next database value.  MongoDB query documents
built by the handlers are embedded as a `Critera` record (the source spells
the variable `critera`) together with an evaluation function `matchCritera`
that gives the documented MongoDB semantics of the produced filters
(`$regex/$options:i`, `$in` on an embedded-array field, `$all` over
regular expressions).  JavaScript `String.split` with a one-character
separator is embedded as `jsSplit`; `RegExp(tok, "i").test(name)` is
embedded, for tokens free of regex metacharacters, as the case-insensitive
substring test `regexTestCI`.
-/

namespace RecipeBook

/-! ## JavaScript string primitives -/

/-- JavaScript `s.split(sep)` for a one-character separator, on char lists:
splitting never yields the empty list; a separator at the edge yields an
empty segment, exactly as in JavaScript. -/
def splitChar (sep : Char) : List Char → List (List Char)
  | [] => [[]]
  | c :: cs =>
    if c = sep then [] :: splitChar sep cs
    else
      match splitChar sep cs with
      | [] => [[c]]
      | t :: ts => (c :: t) :: ts

/-- JavaScript `s.split(sep)` for a one-character separator. -/
def jsSplit (sep : Char) (s : String) : List String :=
  (splitChar sep s.data).map String.mk

/-- Character-wise lowercasing (JavaScript `toLowerCase` on ASCII data). -/
def lowerStr (s : String) : String :=
  String.mk (s.data.map Char.toLower)

/-- Boolean test: `needle` is a prefix of `hay`. -/
def hasPref : List Char → List Char → Bool
  | [], _ => true
  | _ :: _, [] => false
  | a :: as, b :: bs => a == b && hasPref as bs

/-- Boolean test: `needle` occurs as a contiguous sublist of `hay`. -/
def hasSub (needle : List Char) : List Char → Bool
  | [] => needle.isEmpty
  | c :: cs => hasPref needle (c :: cs) || hasSub needle cs

/-- Embedding of `new RegExp(pat, "i").test(s)` (and of MongoDB
`$regex: pat, $options: "i"`) for patterns free of regex metacharacters:
case-insensitive substring containment.  The empty pattern matches every
string, as the empty regular expression does. -/
def regexTestCI (pat s : String) : Bool :=
  hasSub (lowerStr pat).data (lowerStr s).data

/-- JavaScript truthiness of an optional string parameter: an absent
parameter and the empty string are falsy. -/
def qTruthy : Option String → Bool
  | none => false
  | some s => !(s == "")

/-! ## Data model (collections of the `recipe_book` database) -/

/-- A document of the `cuisines` collection. -/
structure Cuisine where
  _id : Nat
  name : String
deriving Repr, DecidableEq

/-- A document of the `tags` collection. -/
structure Tag where
  _id : Nat
  name : String
deriving Repr, DecidableEq

/-- An embedded tag snapshot `{_id, name}` stored inside a recipe. -/
structure TagSnap where
  _id : Nat
  name : String
deriving Repr, DecidableEq

/-- An ingredient subdocument of a recipe (`{name, quantity, unit}`). -/
structure Ingredient where
  name : String
  quantity : String := ""
  unit : String := ""
deriving Repr, DecidableEq

/-- An embedded cuisine snapshot `{_id, name}` stored inside a recipe. -/
structure CuisineSnap where
  _id : Nat
  name : String
deriving Repr, DecidableEq

/-- A document of the `recipes` collection. -/
structure Recipe where
  _id : Nat
  name : String
  cuisine : CuisineSnap
  prepTime : Option Nat := none
  cookTime : Option Nat := none
  servings : Option Nat := none
  ingredients : List Ingredient := []
  instructions : List String := []
  tags : List TagSnap := []
deriving Repr, DecidableEq

/-- A document of the `users` collection (`password` holds the hash). -/
structure User where
  _id : Nat
  email : String
  password : String
deriving Repr, DecidableEq

/-- The `recipe_book` database: one list per collection, in insertion
order (MongoDB returns matching documents in collection order here). -/
structure Db where
  cuisines : List Cuisine := []
  tags : List Tag := []
  recipes : List Recipe := []
  users : List User := []
deriving Repr, DecidableEq

/-! ## Search criteria builder (GET /recipes) -/

/-- The `ingredients.name` clause: the handler first stores `$all` over the
raw comma-split tokens (exact, case-sensitive), then overwrites the same
key with `$all` over per-token case-insensitive regular expressions. -/
inductive IngAll where
  | exact (toks : List String)
  | patterns (pats : List String)
deriving Repr, DecidableEq

/-- The filter document `critera` built by the GET /recipes handler. -/
structure Critera where
  nameRegex : Option String := none
  tagsIn : Option (List String) := none
  ingredientsAll : Option IngAll := none
deriving Repr, DecidableEq

/-- The GET /recipes criteria builder, statement by statement from the
source: `if (name) ... if (tags) ... if (ingredients)` twice, the second
`ingredients` block overwriting the first on the same key. -/
def buildCritera (name tags ingredients : Option String) : Critera :=
  let c : Critera := {}
  let c := if qTruthy name then { c with nameRegex := some (name.getD "") } else c
  let c := if qTruthy tags then
    { c with tagsIn := some (jsSplit ',' (tags.getD "")) } else c
  let c := if qTruthy ingredients then
    { c with ingredientsAll := some (IngAll.exact (jsSplit ',' (ingredients.getD ""))) } else c
  let c := if qTruthy ingredients then
    { c with ingredientsAll := some (IngAll.patterns (jsSplit ',' (ingredients.getD ""))) } else c
  c

/-- MongoDB evaluation of the produced filter on one recipe document:
`$regex ... $options i` is a case-insensitive pattern match on `name`;
`$in` on `tags.name` asks for at least one embedded tag whose name is in
the list; `$all` on `ingredients.name` asks, per listed element, for at
least one ingredient matching it (exact equality for plain strings,
case-insensitive pattern match for regular expressions). -/
def matchCritera (c : Critera) (r : Recipe) : Bool :=
  (match c.nameRegex with
   | none => true
   | some p => regexTestCI p r.name) &&
  (match c.tagsIn with
   | none => true
   | some ts => r.tags.any (fun t => ts.contains t.name)) &&
  (match c.ingredientsAll with
   | none => true
   | some (IngAll.exact toks) =>
       toks.all (fun tok => r.ingredients.any (fun i => i.name == tok))
   | some (IngAll.patterns pats) =>
       pats.all (fun p => r.ingredients.any (fun i => regexTestCI p i.name)))

/-- GET /recipes: filter the collection by the built criteria.  The
projection step only restricts returned fields and is not modelled. -/
def getRecipes (db : Db) (name tags ingredients : Option String) : List Recipe :=
  db.recipes.filter (fun r => matchCritera (buildCritera name tags ingredients) r)

/-! ## Recipe write path (POST /recipes, PUT /recipes/:id, DELETE) -/

/-- The request body destructured by the write handlers; an absent field is
`none`.  JavaScript truthiness makes an empty string falsy while an empty
array is truthy, hence the two falsiness tests below. -/
structure RecipeBody where
  name : Option String := none
  cuisine : Option String := none
  prepTime : Option Nat := none
  cookTime : Option Nat := none
  servings : Option Nat := none
  ingredients : Option (List Ingredient) := none
  instructions : Option (List String) := none
  tags : Option (List String) := none
deriving Repr, DecidableEq

/-- JavaScript falsiness of an optional string body field. -/
def strFalsy : Option String → Bool
  | none => true
  | some s => s == ""

/-- JavaScript falsiness of an optional array body field (an empty array
is truthy in JavaScript, so only absence is falsy). -/
def listFalsy {α : Type} : Option (List α) → Bool
  | none => true
  | some _ => false

/-- The basic validation `if (!name || !cuisine || !ingredients ||
!instructions || !tags)` of both write handlers, stated positively. -/
def hasRequiredFields (b : RecipeBody) : Bool :=
  !(strFalsy b.name || strFalsy b.cuisine || listFalsy b.ingredients ||
    listFalsy b.instructions || listFalsy b.tags)

/-- The HTTP response sent by a handler; absent payload fields are `none`. -/
structure Resp where
  status : Nat
  error : Option String := none
  message : Option String := none
  recipeId : Option Nat := none
  accessToken : Option (Nat × String) := none
deriving Repr, DecidableEq

/-- `db.collection("cuisines").findOne({name: cname})`: first document with
exactly that name, in collection order. -/
def findCuisine (db : Db) (cname : String) : Option Cuisine :=
  db.cuisines.find? (fun c => c.name == cname)

/-- `db.collection("tags").find({name: {$in: tnames}}).toArray()`: every
tag document whose name is in the requested list, in collection order. -/
def findTagDocs (db : Db) (tnames : List String) : List Tag :=
  db.tags.filter (fun t => tnames.contains t.name)

/-- POST /recipes: basic validation, cuisine resolution by exact name, tag
resolution with a count comparison, then a single `insertOne`.  `freshId`
stands for the `new ObjectId()` generated for the document. -/
def postRecipes (db : Db) (freshId : Nat) (b : RecipeBody) : Resp × Db :=
  if !(hasRequiredFields b) then
    ({ status := 400, error := some "Missing required fields" }, db)
  else
    match findCuisine db (b.cuisine.getD "") with
    | none => ({ status := 400, error := some "Invalid cuisine" }, db)
    | some cuisineDoc =>
      let tags := b.tags.getD []
      let tagDocs := findTagDocs db tags
      if tagDocs.length ≠ tags.length then
        ({ status := 400, error := some "One or more invalid tags" }, db)
      else
        let newRecipe : Recipe := {
          _id := freshId
          name := b.name.getD ""
          cuisine := { _id := cuisineDoc._id, name := cuisineDoc.name }
          prepTime := b.prepTime
          cookTime := b.cookTime
          servings := b.servings
          ingredients := b.ingredients.getD []
          instructions := b.instructions.getD []
          tags := tagDocs.map (fun t => { _id := t._id, name := t.name }) }
        ({ status := 201, message := some "Recipe created successfully",
           recipeId := some freshId },
         { db with recipes := db.recipes ++ [newRecipe] })

/-- Replace the first list element satisfying `p` by `f` of it
(`updateOne` updates at most one matching document). -/
def updateFirst {α : Type} (p : α → Bool) (f : α → α) : List α → List α
  | [] => []
  | x :: xs => if p x then f x :: xs else x :: updateFirst p f xs

/-- PUT /recipes/:id: same validation and resolution as POST, then
`updateOne({_id}, {$set: updatedRecipe})`; `matchedCount === 0` yields 404.
Updating no matching document leaves the collection unchanged, so the 404
branch is stated before the rewrite without changing the semantics. -/
def putRecipe (db : Db) (rid : Nat) (b : RecipeBody) : Resp × Db :=
  if !(hasRequiredFields b) then
    ({ status := 400, error := some "Missing required fields" }, db)
  else
    match findCuisine db (b.cuisine.getD "") with
    | none => ({ status := 400, error := some "Invalid cuisine" }, db)
    | some cuisineDoc =>
      let tags := b.tags.getD []
      let tagDocs := findTagDocs db tags
      if tagDocs.length ≠ tags.length then
        ({ status := 400, error := some "One or more invalid tags" }, db)
      else if !(db.recipes.any (fun r => r._id == rid)) then
        ({ status := 404, error := some "Recipe not found" }, db)
      else
        let upd : Recipe → Recipe := fun r =>
          { r with
            name := b.name.getD ""
            cuisine := { _id := cuisineDoc._id, name := cuisineDoc.name }
            prepTime := b.prepTime
            cookTime := b.cookTime
            servings := b.servings
            ingredients := b.ingredients.getD []
            instructions := b.instructions.getD []
            tags := tagDocs.map (fun t => { _id := t._id, name := t.name }) }
        ({ status := 200, message := some "Recipe updated successfully" },
         { db with recipes := updateFirst (fun r => r._id == rid) upd db.recipes })

/-- DELETE /recipes/:id: `deleteOne({_id})` removes the first matching
document if any, and the handler answers with the same success message
whether or not a document matched. -/
def deleteRecipe (db : Db) (rid : Nat) : Resp × Db :=
  ({ status := 200, message := some "Recipe deleted successfully" },
   { db with recipes := db.recipes.eraseP (fun r => r._id == rid) })

/-! ## Login (POST /login) -/

/-- POST /login: `findOne({email})`, then `bcrypt.compare` on a hit.  The
bcrypt comparison is abstracted as the `compare plain hash` parameter; the
issued JWT payload is abstracted as the `(user id, email)` pair fed to
`generateAccessToken`. -/
def login (db : Db) (compare : String → String → Bool)
    (email password : String) : Resp :=
  match db.users.find? (fun u => u.email == email) with
  | none => { status := 401, error := some "Invalid login" }
  | some user =>
    if compare password user.password then
      { status := 200, accessToken := some (user._id, user.email) }
    else
      { status := 401, error := some "Invalid login" }

/-! ## Auth middleware (middlewares.js, verifyToken) -/

/-- The decoded JWT claims attached to the request. -/
structure TokenPayload where
  user_id : Nat
  email : String
deriving Repr, DecidableEq

/-- Outcome of the middleware: 401 missing token, 401 invalid token, or
forwarding with the decoded payload attached. -/
inductive AuthOutcome where
  | missingToken
  | invalidToken
  | verified (p : TokenPayload)
deriving Repr, DecidableEq

/-- Token extraction of `verifyToken`:
`const parts = auth.split(" "); parts.length === 2 ? parts[1] : parts[0]`. -/
def extractToken (auth : String) : String :=
  let parts := jsSplit ' ' auth
  if parts.length == 2 then parts.getD 1 "" else parts.getD 0 ""

/-- The middleware: absent or empty header is falsy and yields the missing
token rejection; otherwise the extracted segment is checked by
`jwt.verify` against the shared secret, abstracted as the `jwtVerify`
parameter returning the decoded payload on success. -/
def verifyToken (jwtVerify : String → Option TokenPayload)
    (auth : Option String) : AuthOutcome :=
  match auth with
  | none => AuthOutcome.missingToken
  | some a =>
    if a == "" then AuthOutcome.missingToken
    else
      match jwtVerify (extractToken a) with
      | none => AuthOutcome.invalidToken
      | some p => AuthOutcome.verified p

/-- Modelled from the spec: the last whitespace-delimited segment of the
header value (the claim wording the extraction is compared against). -/
def specLastSegment (auth : String) : String :=
  ((jsSplit ' ' auth).filter (fun s => !(s == ""))).getLastD ""

/-! ## Database connection (db.js, connect) -/

/-- What a call to `connect` hands back: either `client.db(dbname)` (a
database handle) or the cached `MongoClient` object itself. -/
inductive Handle where
  | dbHandle (uri dbname : String)
  | clientObj (uri : String)
deriving Repr, DecidableEq

/-- The module state of db.js: the global `client` variable (`none` when
still null), with a counter of actual network connections made. -/
structure ConnState where
  client : Option String := none
  connectCalls : Nat := 0
deriving Repr, DecidableEq

/-- db.js `connect(uri, dbname)`: on a cached client it executes
`return client;` (the client object, not a database handle); otherwise it
creates the client, connects once, and returns `client.db(dbname)`. -/
def connect (st : ConnState) (uri dbname : String) : Handle × ConnState :=
  match st.client with
  | some cachedUri => (Handle.clientObj cachedUri, st)
  | none =>
    (Handle.dbHandle uri dbname,
     { client := some uri, connectCalls := st.connectCalls + 1 })

/-! ## Helper lemmas -/

/-- Splitting a character list never yields the empty list. -/
theorem splitChar_ne_nil (sep : Char) (l : List Char) : splitChar sep l ≠ [] := by
  cases l with
  | nil => simp [splitChar]
  | cons c cs =>
    simp only [splitChar]
    split
    · simp
    · split <;> simp

/-- Splitting a string never yields the empty list. -/
theorem jsSplit_ne_nil (sep : Char) (s : String) : jsSplit sep s ≠ [] := by
  intro h
  have hlen := congrArg List.length h
  simp [jsSplit] at hlen
  exact splitChar_ne_nil sep s.data hlen

/-- A split with a single segment returns the input whole (the separator
does not occur). -/
theorem splitChar_singleton (sep : Char) (l m : List Char)
    (h : splitChar sep l = [m]) : m = l := by
  induction l generalizing m with
  | nil =>
    simp [splitChar] at h
    exact h
  | cons c cs ih =>
    by_cases hc : c = sep
    · rw [splitChar, if_pos hc] at h
      injection h with h1 h2
      exact absurd h2 (splitChar_ne_nil sep cs)
    · rw [splitChar, if_neg hc] at h
      rcases heq : splitChar sep cs with _ | ⟨t, ts⟩
      · exact absurd heq (splitChar_ne_nil sep cs)
      · rw [heq] at h
        injection h with h1 h2
        subst h2
        rw [← h1, ih t heq]

/-- A string whose split has a single segment is returned whole. -/
theorem jsSplit_singleton (sep : Char) (s x : String)
    (h : jsSplit sep s = [x]) : x = s := by
  simp only [jsSplit] at h
  rcases heq : splitChar sep s.data with _ | ⟨t, ts⟩
  · exact absurd heq (splitChar_ne_nil sep s.data)
  · rw [heq] at h
    simp at h
    obtain ⟨h1, h2⟩ := h
    subst h2
    have ht := splitChar_singleton sep s.data t heq
    rw [← h1, ht]

/-- Characterisation of the boolean prefix test. -/
theorem hasPref_iff (n h : List Char) : hasPref n h = true ↔ ∃ t, h = n ++ t := by
  induction n generalizing h with
  | nil => simp [hasPref]
  | cons a as ih =>
    cases h with
    | nil => simp [hasPref]
    | cons b bs =>
      simp only [hasPref, Bool.and_eq_true, beq_iff_eq, ih, List.cons_append,
        List.cons.injEq]
      constructor
      · rintro ⟨rfl, t, rfl⟩
        exact ⟨t, rfl, rfl⟩
      · rintro ⟨t, rfl, rfl⟩
        exact ⟨rfl, t, rfl⟩

/-- Characterisation of the boolean contiguous-sublist test. -/
theorem hasSub_iff (n h : List Char) :
    hasSub n h = true ↔ ∃ pre post, h = pre ++ n ++ post := by
  induction h with
  | nil =>
    constructor
    · intro hn
      cases n with
      | nil => exact ⟨[], [], rfl⟩
      | cons x xs => simp [hasSub, List.isEmpty] at hn
    · rintro ⟨pre, post, hp⟩
      cases pre with
      | nil =>
        cases n with
        | nil => simp [hasSub, List.isEmpty]
        | cons x xs => simp at hp
      | cons p pre2 => simp at hp
  | cons c cs ih =>
    simp only [hasSub, Bool.or_eq_true, hasPref_iff, ih]
    constructor
    · rintro (⟨t, hp⟩ | ⟨pre, post, hp⟩)
      · exact ⟨[], t, by simpa using hp⟩
      · exact ⟨c :: pre, post, by simp [hp]⟩
    · rintro ⟨pre, post, hp⟩
      cases pre with
      | nil =>
        left
        exact ⟨post, by simpa using hp⟩
      | cons p pre2 =>
        right
        rw [List.cons_append, List.cons_append] at hp
        injection hp with h1 h2
        exact ⟨pre2, post, h2⟩

/-- With pairwise-distinct tag names in the collection, a duplicated
request list resolves to strictly fewer documents than names requested. -/
theorem findTagDocs_length_lt (db : Db) (ts : List String)
    (hdup : ¬ ts.Nodup) (hnames : (db.tags.map Tag.name).Nodup) :
    (findTagDocs db ts).length < ts.length := by
  have hsub : ((findTagDocs db ts).map Tag.name).Sublist (db.tags.map Tag.name) :=
    List.Sublist.map Tag.name (List.filter_sublist db.tags)
  have h1 : ((findTagDocs db ts).map Tag.name).Nodup :=
    List.Nodup.sublist hsub hnames
  have h2 : ∀ x ∈ (findTagDocs db ts).map Tag.name, x ∈ ts := by
    intro x hx
    rw [List.mem_map] at hx
    obtain ⟨d, hd, rfl⟩ := hx
    rw [findTagDocs, List.mem_filter] at hd
    exact List.elem_iff.mp hd.2
  have h3 : ((findTagDocs db ts).map Tag.name).length ≤ ts.dedup.length := by
    calc ((findTagDocs db ts).map Tag.name).length
        = ((findTagDocs db ts).map Tag.name).toFinset.card :=
          (List.toFinset_card_of_nodup h1).symm
      _ ≤ ts.toFinset.card := by
          apply Finset.card_le_card
          intro x hx
          rw [List.mem_toFinset] at hx ⊢
          exact h2 x hx
      _ = ts.dedup.length := List.card_toFinset ts
  have h4 : ts.dedup.length < ts.length := by
    rcases lt_or_eq_of_le (List.Sublist.length_le (List.dedup_sublist ts)) with h | h
    · exact h
    · exact absurd (List.Sublist.eq_of_length (List.dedup_sublist ts) h ▸
        List.nodup_dedup ts) hdup
  have h5 : (findTagDocs db ts).length = ((findTagDocs db ts).map Tag.name).length :=
    (List.length_map _ _).symm
  omega

/-- The empty needle occurs in every list. -/
theorem hasSub_nil_left (l : List Char) : hasSub [] l = true := by
  cases l <;> simp [hasSub, hasPref, List.isEmpty]

/-- The empty pattern (the empty regular expression) matches everything. -/
theorem regexTestCI_empty (s : String) : regexTestCI "" s = true :=
  hasSub_nil_left (lowerStr s).data

/-! ## Demonstration data for concrete witnesses -/

/-- A sample stored recipe document. -/
def sampleRecipe : Recipe :=
  { _id := 1, name := "Omelette", cuisine := { _id := 1, name := "French" },
    ingredients := [{ name := "Egg", quantity := "2", unit := "pcs" }],
    instructions := ["Beat", "Fry"], tags := [{ _id := 1, name := "quick" }] }

/-- A sample database holding `sampleRecipe`. -/
def demoDbGet : Db := { recipes := [sampleRecipe] }

/-- A well-formed write request body. -/
def demoBody : RecipeBody :=
  { name := some "Soup", cuisine := some "French",
    ingredients := some [{ name := "Egg" }],
    instructions := some ["Boil"], tags := some ["quick"] }

/-- A database that knows the tag `quick` but not the cuisine `French`. -/
def demoDbNoFrench : Db :=
  { cuisines := [{ _id := 1, name := "Thai" }],
    tags := [{ _id := 2, name := "quick" }] }

/-- A database that knows the cuisine `French` and the tag `quick`. -/
def demoDbFull : Db :=
  { cuisines := [{ _id := 1, name := "French" }],
    tags := [{ _id := 2, name := "quick" }] }

/-- A write request body listing the same tag name twice. -/
def demoBodyDup : RecipeBody :=
  { name := some "Soup", cuisine := some "French",
    ingredients := some [{ name := "Egg" }], instructions := some ["Boil"],
    tags := some ["quick", "quick"] }

/-- A registered user. -/
def demoUser : User := { _id := 5, email := "amber.example", password := "hash1" }

/-- A database holding only `demoUser`. -/
def demoDbUsers : Db := { users := [demoUser] }

/-- A stand-in for the bcrypt comparison: the plain text must equal the
stored hash (enough to exercise the login control flow). -/
def demoCompare : String → String → Bool := fun plain hash => plain == hash

/-- A stand-in for `jwt.verify` accepting exactly the token `tok1`. -/
def demoVerify : String → Option TokenPayload :=
  fun s => if s == "tok1" then some { user_id := 7, email := "amber.example" }
           else none

/-! ## Claims -/

/-- C4: a POST /recipes or PUT /recipes/:id request that passes basic
validation but names a cuisine with no exact-name match is answered with
HTTP 400 and the `Invalid cuisine` error, and the database — in particular
the recipes collection — is left unchanged. -/
theorem invalid_cuisine_rejected_no_write (db : Db) (fid rid : Nat)
    (b : RecipeBody) (cu : String)
    (hval : hasRequiredFields b = true)
    (hcu : b.cuisine = some cu)
    (hfind : findCuisine db cu = none) :
    postRecipes db fid b = ({ status := 400, error := some "Invalid cuisine" }, db) ∧
    putRecipe db rid b = ({ status := 400, error := some "Invalid cuisine" }, db) := by
  constructor <;> simp [postRecipes, putRecipe, hval, hcu, hfind]

/-- Witness for C4 at a concrete database and request body. -/
theorem invalid_cuisine_rejected_no_write_witness :
    (hasRequiredFields demoBody = true ∧ demoBody.cuisine = some "French" ∧
     findCuisine demoDbNoFrench "French" = none) ∧
    (postRecipes demoDbNoFrench 9 demoBody =
       ({ status := 400, error := some "Invalid cuisine" }, demoDbNoFrench) ∧
     putRecipe demoDbNoFrench 3 demoBody =
       ({ status := 400, error := some "Invalid cuisine" }, demoDbNoFrench)) :=
  ⟨⟨by decide, by decide, by decide⟩,
   invalid_cuisine_rejected_no_write demoDbNoFrench 9 3 demoBody "French"
     (by decide) (by decide) (by decide)⟩

/-- C5: whenever the requested tag names resolve to a document count
different from the requested name count, both write handlers answer with
HTTP 400 and leave the database unchanged, whatever the rest of the
request looks like. -/
theorem tag_count_mismatch_rejected_no_write (db : Db) (fid rid : Nat)
    (b : RecipeBody) (ts : List String)
    (hts : b.tags = some ts)
    (hmis : (findTagDocs db ts).length ≠ ts.length) :
    ((postRecipes db fid b).1.status = 400 ∧ (postRecipes db fid b).2 = db) ∧
    ((putRecipe db rid b).1.status = 400 ∧ (putRecipe db rid b).2 = db) := by
  by_cases hval : hasRequiredFields b = true
  · rcases hfc : findCuisine db (b.cuisine.getD "") with _ | cd
    · constructor <;> simp [postRecipes, putRecipe, hval, hfc]
    · constructor <;> simp [postRecipes, putRecipe, hval, hfc, hts, hmis]
  · have hv : hasRequiredFields b = false := by
      simpa using hval
    constructor <;> simp [postRecipes, putRecipe, hv]

/-- Witness for C5: one of the two requested tag names is unknown. -/
theorem tag_count_mismatch_rejected_no_write_witness :
    (demoBodyDup.tags = some ["quick", "quick"] ∧
     (findTagDocs demoDbNoFrench ["quick", "quick"]).length ≠
       (["quick", "quick"] : List String).length) ∧
    (((postRecipes demoDbNoFrench 9 demoBodyDup).1.status = 400 ∧
      (postRecipes demoDbNoFrench 9 demoBodyDup).2 = demoDbNoFrench) ∧
     ((putRecipe demoDbNoFrench 3 demoBodyDup).1.status = 400 ∧
      (putRecipe demoDbNoFrench 3 demoBodyDup).2 = demoDbNoFrench)) :=
  ⟨⟨by decide, by decide⟩,
   tag_count_mismatch_rejected_no_write demoDbNoFrench 9 3 demoBodyDup
     ["quick", "quick"] (by decide) (by decide)⟩

/-- C6: a login with a registered email and a wrong password and a login
with an unknown email produce literally the same response, HTTP 401 with
the `Invalid login` error body. -/
theorem login_failures_indistinguishable (db : Db)
    (compare : String → String → Bool) (e1 p1 e2 p2 : String) (u : User)
    (h1 : db.users.find? (fun v => v.email == e1) = some u)
    (h2 : compare p1 u.password = false)
    (h3 : db.users.find? (fun v => v.email == e2) = none) :
    login db compare e1 p1 = login db compare e2 p2 ∧
    login db compare e1 p1 = { status := 401, error := some "Invalid login" } := by
  constructor <;> simp [login, h1, h2, h3]

/-- Witness for C6 at a concrete user table. -/
theorem login_failures_indistinguishable_witness :
    (demoDbUsers.users.find? (fun v => v.email == "amber.example") = some demoUser ∧
     demoCompare "wrong" demoUser.password = false ∧
     demoDbUsers.users.find? (fun v => v.email == "nobody.example") = none) ∧
    (login demoDbUsers demoCompare "amber.example" "wrong" =
       login demoDbUsers demoCompare "nobody.example" "pw" ∧
     login demoDbUsers demoCompare "amber.example" "wrong" =
       { status := 401, error := some "Invalid login" }) :=
  ⟨⟨by decide, by decide, by decide⟩,
   login_failures_indistinguishable demoDbUsers demoCompare "amber.example"
     "wrong" "nobody.example" "pw" demoUser (by decide) (by decide) (by decide)⟩

/-- C7: DELETE /recipes/:id answers the same success response whether or
not a recipe with that id exists, and deleting the same id twice yields
that very success response both times. -/
theorem delete_idempotent_success (db : Db) (rid : Nat) :
    (deleteRecipe db rid).1 =
      { status := 200, message := some "Recipe deleted successfully" } ∧
    (deleteRecipe (deleteRecipe db rid).2 rid).1 = (deleteRecipe db rid).1 :=
  ⟨rfl, rfl⟩

/-- C9: evaluating db.js `connect` twice on the same uri and database
name. The first call opens the one connection and returns the database
handle `client.db(dbname)`; the second call opens no new connection but
executes `return client;`, handing back the MongoClient object itself —
not the database handle the first call returned. -/
theorem connect_second_call_returns_client_not_db :
    (connect { client := none, connectCalls := 0 } "mongodb://u" "recipe_book").1 =
      Handle.dbHandle "mongodb://u" "recipe_book" ∧
    (connect (connect { client := none, connectCalls := 0 } "mongodb://u"
        "recipe_book").2 "mongodb://u" "recipe_book").1 =
      Handle.clientObj "mongodb://u" ∧
    (connect (connect { client := none, connectCalls := 0 } "mongodb://u"
        "recipe_book").2 "mongodb://u" "recipe_book").2.connectCalls = 1 ∧
    (connect (connect { client := none, connectCalls := 0 } "mongodb://u"
        "recipe_book").2 "mongodb://u" "recipe_book").1 ≠
      (connect { client := none, connectCalls := 0 } "mongodb://u" "recipe_book").1 := by
  decide

/-- C10: a write request repeating a tag name is rejected with the 400
invalid-tag error and no write, even though every named tag exists,
because under pairwise-distinct collection names the resolved document
count is necessarily below the requested name count. -/
theorem duplicate_tags_rejected (db : Db) (fid rid : Nat) (b : RecipeBody)
    (ts : List String) (cu : String) (cd : Cuisine)
    (hval : hasRequiredFields b = true)
    (hcu : b.cuisine = some cu)
    (hfind : findCuisine db cu = some cd)
    (hts : b.tags = some ts)
    (hdup : ¬ ts.Nodup)
    (_hex : ∀ t ∈ ts, ∃ d ∈ db.tags, d.name = t)
    (hnames : (db.tags.map Tag.name).Nodup) :
    postRecipes db fid b =
      ({ status := 400, error := some "One or more invalid tags" }, db) ∧
    putRecipe db rid b =
      ({ status := 400, error := some "One or more invalid tags" }, db) := by
  have hlt := findTagDocs_length_lt db ts hdup hnames
  have hmis : (findTagDocs db ts).length ≠ ts.length := Nat.ne_of_lt hlt
  constructor <;> simp [postRecipes, putRecipe, hval, hcu, hfind, hts, hmis]

/-- Witness for C10: the tag `quick` exists once but is requested twice. -/
theorem duplicate_tags_rejected_witness :
    (hasRequiredFields demoBodyDup = true ∧
     demoBodyDup.cuisine = some "French" ∧
     findCuisine demoDbFull "French" = some { _id := 1, name := "French" } ∧
     demoBodyDup.tags = some ["quick", "quick"] ∧
     ¬ (["quick", "quick"] : List String).Nodup ∧
     (∀ t ∈ (["quick", "quick"] : List String), ∃ d ∈ demoDbFull.tags, d.name = t) ∧
     (demoDbFull.tags.map Tag.name).Nodup) ∧
    (postRecipes demoDbFull 9 demoBodyDup =
       ({ status := 400, error := some "One or more invalid tags" }, demoDbFull) ∧
     putRecipe demoDbFull 3 demoBodyDup =
       ({ status := 400, error := some "One or more invalid tags" }, demoDbFull)) :=
  ⟨⟨by decide, by decide, by decide, by decide, by decide, by decide, by decide⟩,
   duplicate_tags_rejected demoDbFull 9 3 demoBodyDup ["quick", "quick"]
     "French" { _id := 1, name := "French" } (by decide) (by decide) (by decide)
     (by decide) (by decide) (by decide) (by decide)⟩

/-- C1 counterexample: on the three-segment header `Bearer abc xyz` the
middleware extracts the FIRST segment `Bearer`, not the last segment
`xyz`; a verifier accepting exactly the last segment therefore sees the
request rejected. -/
theorem extractToken_not_last_segment_counterexample :
    specLastSegment "Bearer abc xyz" = "xyz" ∧
    extractToken "Bearer abc xyz" = "Bearer" ∧
    verifyToken (fun s => if s == "xyz" then
        some { user_id := 1, email := "amber.example" } else none)
      (some "Bearer abc xyz") = AuthOutcome.invalidToken := by
  decide

/-- C1 (amended): for a header that splits on single spaces into exactly
two segments, or into a single segment (a bare token), the middleware
extracts the last segment and verifies exactly that segment against the
shared secret; headers of three or more segments are instead reduced to
their first segment. -/
theorem verifyToken_extracts_two_part_or_bare
    (jwtVerify : String → Option TokenPayload) (auth tokc : String)
    (hform : (jsSplit ' ' auth = [tokc] ∧ auth ≠ "") ∨
             ∃ scheme, jsSplit ' ' auth = [scheme, tokc]) :
    extractToken auth = tokc ∧
    verifyToken jwtVerify (some auth) =
      (match jwtVerify tokc with
       | none => AuthOutcome.invalidToken
       | some p => AuthOutcome.verified p) := by
  have hex : extractToken auth = tokc := by
    rcases hform with ⟨hs, _⟩ | ⟨scheme, hs⟩
    · simp [extractToken, hs]
    · simp [extractToken, hs]
  have hne : auth ≠ "" := by
    rcases hform with ⟨_, hne⟩ | ⟨scheme, hs⟩
    · exact hne
    · intro he
      subst he
      simp [jsSplit, splitChar] at hs
  refine ⟨hex, ?_⟩
  have hbe : (auth == "") = false := by
    simpa using hne
  simp [verifyToken, hbe, hex]

/-- Witness for C1 (amended) on the header `Bearer tok1`. -/
theorem verifyToken_extracts_two_part_or_bare_witness :
    ((jsSplit ' ' "Bearer tok1" = ["tok1"] ∧ ("Bearer tok1" : String) ≠ "") ∨
      ∃ scheme, jsSplit ' ' "Bearer tok1" = [scheme, "tok1"]) ∧
    (extractToken "Bearer tok1" = "tok1" ∧
     verifyToken demoVerify (some "Bearer tok1") =
       (match demoVerify "tok1" with
        | none => AuthOutcome.invalidToken
        | some p => AuthOutcome.verified p)) :=
  ⟨Or.inr ⟨"Bearer", by decide⟩,
   verifyToken_extracts_two_part_or_bare demoVerify "Bearer tok1" "tok1"
     (Or.inr ⟨"Bearer", by decide⟩)⟩

/-- C2 counterexample: for the ingredients value `,` the builder does add
an `ingredients.name` clause (two empty patterns), and that clause matches
`sampleRecipe` — so the behavior is neither `no clause` nor a clause
matching zero recipes. -/
theorem commas_only_clause_counterexample :
    (buildCritera none none (some ",")).ingredientsAll =
      some (IngAll.patterns ["", ""]) ∧
    matchCritera (buildCritera none none (some ",")) sampleRecipe = true := by
  decide

/-- C2 (amended): when the supplied ingredients value consists only of
commas (every comma-split token is empty), the builder does not crash; it
adds a clause of empty patterns, each matching every string, so the filter
matches exactly the recipes having at least one ingredient. -/
theorem commas_only_matches_recipes_with_ingredients (s : String) (r : Recipe)
    (hne : s ≠ "") (hall : ∀ t ∈ jsSplit ',' s, t = "") :
    matchCritera (buildCritera none none (some s)) r = !r.ingredients.isEmpty := by
  have hq : (s == "") = false := by
    simpa using hne
  have hc : buildCritera none none (some s) =
      { ingredientsAll := some (IngAll.patterns (jsSplit ',' s)) } := by
    simp [buildCritera, qTruthy, hq]
  rw [hc]
  rcases heq : r.ingredients with _ | ⟨i, is⟩
  · rw [matchCritera]
    simp [heq]
    rcases hsp : jsSplit ',' s with _ | ⟨p, ps⟩
    · exact absurd hsp (jsSplit_ne_nil ',' s)
    · simp [hsp]
  · rw [matchCritera]
    simp only [heq, List.isEmpty_cons, Bool.not_false]
    simp only [Bool.and_eq_true, List.all_eq_true]
    refine ⟨by simp, ?_⟩
    intro p hp
    rw [hall p hp]
    simp [regexTestCI_empty]

/-- Witness for C2 (amended) at the value `,` and `sampleRecipe`. -/
theorem commas_only_matches_recipes_with_ingredients_witness :
    (("," : String) ≠ "" ∧ ∀ t ∈ jsSplit ',' ",", t = "") ∧
    matchCritera (buildCritera none none (some ",")) sampleRecipe =
      !sampleRecipe.ingredients.isEmpty :=
  ⟨⟨by decide, by decide⟩,
   commas_only_matches_recipes_with_ingredients "," sampleRecipe
     (by decide) (by decide)⟩

/-- C3: with a non-empty ingredients parameter, GET /recipes returns
exactly the stored recipes that, for every comma-split token, have at
least one ingredient whose lowercased name contains the lowercased token
as a contiguous substring — a conjunctive case-insensitive containment
test, not exact equality. -/
theorem ingredients_filter_conjunctive_ci (db : Db) (s : String) (r : Recipe)
    (hs : s ≠ "") :
    r ∈ getRecipes db none none (some s) ↔
      r ∈ db.recipes ∧
      ∀ tok ∈ jsSplit ',' s, ∃ ing ∈ r.ingredients, ∃ pre post,
        (lowerStr ing.name).data = pre ++ (lowerStr tok).data ++ post := by
  have hq : (s == "") = false := by
    simpa using hs
  have hc : buildCritera none none (some s) =
      { ingredientsAll := some (IngAll.patterns (jsSplit ',' s)) } := by
    simp [buildCritera, qTruthy, hq]
  rw [getRecipes, hc, List.mem_filter]
  simp [matchCritera, List.all_eq_true, List.any_eq_true, regexTestCI, hasSub_iff]

/-- Witness for C3: searching `egg` finds `sampleRecipe` through its
ingredient `Egg`. -/
theorem ingredients_filter_conjunctive_ci_witness :
    ("egg" : String) ≠ "" ∧
    (sampleRecipe ∈ getRecipes demoDbGet none none (some "egg") ↔
      sampleRecipe ∈ demoDbGet.recipes ∧
      ∀ tok ∈ jsSplit ',' "egg", ∃ ing ∈ sampleRecipe.ingredients, ∃ pre post,
        (lowerStr ing.name).data = pre ++ (lowerStr tok).data ++ post) :=
  ⟨by decide,
   ingredients_filter_conjunctive_ci demoDbGet "egg" sampleRecipe (by decide)⟩

/-- C8: with a non-empty tags parameter, GET /recipes returns exactly the
stored recipes having at least one embedded tag whose name is literally a
member of the comma-split name set — a disjunctive exact-membership test —
and consequently every returned recipe has at least one tag name in the
given set. -/
theorem tags_filter_disjunctive (db : Db) (s : String) (r : Recipe)
    (hs : s ≠ "") :
    (r ∈ getRecipes db none (some s) none ↔
      r ∈ db.recipes ∧ ∃ t ∈ r.tags, t.name ∈ jsSplit ',' s) ∧
    ∀ q ∈ getRecipes db none (some s) none,
      ∃ t ∈ q.tags, t.name ∈ jsSplit ',' s := by
  have hq : (s == "") = false := by
    simpa using hs
  have hc : buildCritera none (some s) none =
      { tagsIn := some (jsSplit ',' s) } := by
    simp [buildCritera, qTruthy, hq]
  have hmem : ∀ q : Recipe, q ∈ getRecipes db none (some s) none ↔
      q ∈ db.recipes ∧ ∃ t ∈ q.tags, t.name ∈ jsSplit ',' s := by
    intro q
    rw [getRecipes, hc, List.mem_filter]
    simp [matchCritera, List.any_eq_true, List.elem_iff, List.contains]
  exact ⟨hmem r, fun q hqm => ((hmem q).mp hqm).2⟩

/-- Witness for C8: searching `quick,spicy` finds `sampleRecipe` through
its tag `quick`. -/
theorem tags_filter_disjunctive_witness :
    ("quick,spicy" : String) ≠ "" ∧
    ((sampleRecipe ∈ getRecipes demoDbGet none (some "quick,spicy") none ↔
       sampleRecipe ∈ demoDbGet.recipes ∧
       ∃ t ∈ sampleRecipe.tags, t.name ∈ jsSplit ',' "quick,spicy") ∧
     ∀ q ∈ getRecipes demoDbGet none (some "quick,spicy") none,
       ∃ t ∈ q.tags, t.name ∈ jsSplit ',' "quick,spicy") :=
  ⟨by decide,
   tags_filter_disjunctive demoDbGet "quick,spicy" sampleRecipe (by decide)⟩

end RecipeBook
